import Mathlib

/-!
Verification of the ESPHome native-API protobuf code generator
(`script/api_protobuf/api_protobuf.py`).

The Python generator is shallowly embedded below: descriptor structures
mirror the protobuf descriptor fields the script reads, and each Python
function or method relevant to the verified properties is translated into
an executable Lean definition with the same name where possible.
Machine integers in the script are plain Python ints, so `Nat` is used
directly.  Fallible code (`raise ValueError`) is modelled with
`Except String`.
-/

namespace ApiProtobuf

/-- Field options read by the generator (`deprecated`, the custom
`fixed_array_size` extension and the custom `field_ifdef` extension).
`none` models an absent extension (`HasExtension` false). -/
structure FieldOptions where
  deprecated : Bool := false
  fixedArraySize : Option Nat := none
  fieldIfdef : Option String := none
  deriving Repr, DecidableEq

/-- A `FieldDescriptorProto` as consumed by the script: `name`, `number`,
`label` (3 = repeated), `type` (protobuf type code) and `type_name`
(for message/enum fields, e.g. `".SomeMessage"`). -/
structure FieldDesc where
  name : String
  number : Nat
  label : Nat := 1
  type : Nat
  typeName : String := ""
  options : FieldOptions := {}
  deriving Repr, DecidableEq

/-- Message options read by the generator: `deprecated`, and the custom
extensions `ifdef`, `source`, `id`, `base_class`.  `none` models an
absent extension. -/
structure MsgOptions where
  deprecated : Bool := false
  ifdef : Option String := none
  source : Option Nat := none
  id : Option Nat := none
  baseClass : Option String := none
  deriving Repr, DecidableEq

/-- A `DescriptorProto` (message descriptor). -/
structure MsgDesc where
  name : String
  field : List FieldDesc := []
  options : MsgOptions := {}
  deriving Repr, DecidableEq

/-- A `FileDescriptorProto` restricted to the parts the verified
properties touch (`message_type`). -/
structure FileDesc where
  message_type : List MsgDesc := []
  deriving Repr, DecidableEq

/-! ## Wire model -/

/-- Source constant `SOURCE_BOTH`. -/
def SOURCE_BOTH : Nat := 0
/-- Source constant `SOURCE_SERVER` (encode-only). -/
def SOURCE_SERVER : Nat := 1
/-- Source constant `SOURCE_CLIENT` (decode-only). -/
def SOURCE_CLIENT : Nat := 2

/-- Model of `SOURCE_NAMES` lookup table. -/
def SOURCE_NAMES (s : Nat) : String :=
  if s = 0 then "SOURCE_BOTH"
  else if s = 1 then "SOURCE_SERVER"
  else if s = 2 then "SOURCE_CLIENT"
  else ""

/-- Model of `TypeInfo.calculate_field_id_size`: byte length of the varint-encoded
tag `(number << 3) | (wire_type & 0b111)`, computed by the threshold
ladder in the source. -/
def calculate_field_id_size (number wireType : Nat) : Nat :=
  let tag := (number <<< 3) ||| (wireType &&& 7)
  if tag < 128 then 1
  else if tag < 16384 then 2
  else if tag < 2097152 then 3
  else if tag < 268435456 then 4
  else 5

/-- Fuel-driven worker for `varintLen`; the fuel is always at least the
value being encoded, so the recursion never runs out. -/
def varintLenAux : Nat → Nat → Nat
  | 0, _ => 1
  | fuel + 1, n => if n < 128 then 1 else 1 + varintLenAux fuel (n / 128)

/-- Modelled from the spec: the byte length of the actual varint encoding
of `n` ("a variable-length integer encoding using 7 payload bits per byte
with a continuation bit").  The wire-format encoder itself
(`esphome/components/api/proto.h`) is not part of the provided sources,
so this reference encoding length is taken from the spec's description. -/
def varintLen (n : Nat) : Nat := varintLenAux n n

theorem varintLenAux_one {m : Nat} (fuel : Nat) (h : m < 128) :
    varintLenAux fuel m = 1 := by
  cases fuel <;> simp [varintLenAux, h]

theorem varintLenAux_two {m : Nat} (fuel : Nat) (hf : 1 ≤ fuel)
    (h1 : 128 ≤ m) (h2 : m < 16384) : varintLenAux fuel m = 2 := by
  obtain ⟨f, rfl⟩ : ∃ f, fuel = f + 1 := ⟨fuel - 1, by omega⟩
  have hd : m / 128 < 128 := by omega
  simp [varintLenAux, Nat.not_lt.mpr h1, varintLenAux_one f hd]

theorem varintLenAux_three {m : Nat} (fuel : Nat) (hf : 2 ≤ fuel)
    (h1 : 16384 ≤ m) (h2 : m < 2097152) : varintLenAux fuel m = 3 := by
  obtain ⟨f, rfl⟩ : ∃ f, fuel = f + 1 := ⟨fuel - 1, by omega⟩
  have hd1 : 128 ≤ m / 128 := by omega
  have hd2 : m / 128 < 16384 := by omega
  simp [varintLenAux, show ¬ m < 128 by omega,
    varintLenAux_two f (by omega) hd1 hd2]

theorem varintLenAux_four {m : Nat} (fuel : Nat) (hf : 3 ≤ fuel)
    (h1 : 2097152 ≤ m) (h2 : m < 268435456) : varintLenAux fuel m = 4 := by
  obtain ⟨f, rfl⟩ : ∃ f, fuel = f + 1 := ⟨fuel - 1, by omega⟩
  have hd1 : 16384 ≤ m / 128 := by omega
  have hd2 : m / 128 < 2097152 := by omega
  simp [varintLenAux, show ¬ m < 128 by omega,
    varintLenAux_three f (by omega) hd1 hd2]

theorem varintLenAux_five {m : Nat} (fuel : Nat) (hf : 4 ≤ fuel)
    (h1 : 268435456 ≤ m) (h2 : m < 34359738368) : varintLenAux fuel m = 5 := by
  obtain ⟨f, rfl⟩ : ∃ f, fuel = f + 1 := ⟨fuel - 1, by omega⟩
  have hd1 : 2097152 ≤ m / 128 := by omega
  have hd2 : m / 128 < 268435456 := by omega
  simp [varintLenAux, show ¬ m < 128 by omega,
    varintLenAux_four f (by omega) hd1 hd2]

theorem varintLen_one {m : Nat} (h : m < 128) : varintLen m = 1 :=
  varintLenAux_one m h

theorem varintLen_two {m : Nat} (h1 : 128 ≤ m) (h2 : m < 16384) :
    varintLen m = 2 :=
  varintLenAux_two m (by omega) h1 h2

theorem varintLen_three {m : Nat} (h1 : 16384 ≤ m) (h2 : m < 2097152) :
    varintLen m = 3 :=
  varintLenAux_three m (by omega) h1 h2

theorem varintLen_four {m : Nat} (h1 : 2097152 ≤ m) (h2 : m < 268435456) :
    varintLen m = 4 :=
  varintLenAux_four m (by omega) h1 h2

theorem varintLen_five {m : Nat} (h1 : 268435456 ≤ m)
    (h2 : m < 34359738368) : varintLen m = 5 :=
  varintLenAux_five m (by omega) h1 h2

theorem calculate_field_id_size_eq_varintLen (n wt : Nat) (h2 : n < 2 ^ 29) :
    calculate_field_id_size n wt = varintLen ((n <<< 3) ||| (wt &&& 7)) := by
  have h8 : n <<< 3 = n * 8 := by rw [Nat.shiftLeft_eq]
  have hand : wt &&& 7 ≤ 7 := Nat.and_le_right
  have hsh : n <<< 3 < 2 ^ 32 := by rw [h8]; omega
  have h32 : (n <<< 3) ||| (wt &&& 7) < 2 ^ 32 :=
    Nat.or_lt_two_pow hsh (lt_of_le_of_lt hand (by norm_num))
  have h35 : (n <<< 3) ||| (wt &&& 7) < 34359738368 :=
    lt_trans h32 (by norm_num)
  simp only [calculate_field_id_size]
  split_ifs with hA hB hC hD
  · exact (varintLen_one hA).symm
  · exact (varintLen_two (by omega) hB).symm
  · exact (varintLen_three (by omega) hC).symm
  · exact (varintLen_four (by omega) hD).symm
  · exact (varintLen_five (by omega) h35).symm

/-- Claim **C1**: for every field number `n ≥ 1` (field numbers are `1..2^29-1`)
and every wire type `wt`, `TypeInfo.calculate_field_id_size` returns the
byte length of the varint encoding of the tag `(n <<< 3) ||| (wt &&& 7)`;
the result is always in `1..5` and it follows the threshold ladder
(1 below 128, 2 below 16384, 3 below 2097152, 4 below 268435456, else 5),
landing on the correct side at each boundary. -/
theorem calculate_field_id_size_correct (n wt : Nat) (_h1 : 1 ≤ n)
    (h2 : n < 2 ^ 29) :
    calculate_field_id_size n wt = varintLen ((n <<< 3) ||| (wt &&& 7)) ∧
    (1 ≤ calculate_field_id_size n wt ∧ calculate_field_id_size n wt ≤ 5) ∧
    ((n <<< 3) ||| (wt &&& 7) < 128 → calculate_field_id_size n wt = 1) ∧
    (128 ≤ (n <<< 3) ||| (wt &&& 7) ∧ (n <<< 3) ||| (wt &&& 7) < 16384 →
      calculate_field_id_size n wt = 2) ∧
    (16384 ≤ (n <<< 3) ||| (wt &&& 7) ∧ (n <<< 3) ||| (wt &&& 7) < 2097152 →
      calculate_field_id_size n wt = 3) ∧
    (2097152 ≤ (n <<< 3) ||| (wt &&& 7) ∧
        (n <<< 3) ||| (wt &&& 7) < 268435456 →
      calculate_field_id_size n wt = 4) ∧
    (268435456 ≤ (n <<< 3) ||| (wt &&& 7) →
      calculate_field_id_size n wt = 5) := by
  refine ⟨calculate_field_id_size_eq_varintLen n wt h2, ?_, ?_, ?_, ?_, ?_, ?_⟩ <;>
    simp only [calculate_field_id_size] <;> split_ifs <;> omega

/-- Witness for C1 at the boundary tag `16384 = 2048 <<< 3`. -/
theorem calculate_field_id_size_correct_witness :
    calculate_field_id_size 2048 0 = varintLen ((2048 <<< 3) ||| (0 &&& 7)) :=
  (calculate_field_id_size_correct 2048 0 (by decide) (by decide)).1

/-! ## Field type registry -/

/-- Model of `UNSUPPORTED_TYPES`: the 64-bit protobuf type codes the generator
rejects, with their names. -/
def UNSUPPORTED_TYPES (t : Nat) : Option String :=
  if t = 1 then some "double"
  else if t = 6 then some "fixed64"
  else if t = 16 then some "sfixed64"
  else if t = 18 then some "sint64"
  else none

/-- The `ValueError` message raised by `validate_field_type`. -/
def unsupported_type_message (typeName fieldName : String) : String :=
  "64-bit type '" ++ typeName ++ "'" ++
    (if fieldName ≠ "" then " (field: " ++ fieldName ++ ")" else "") ++
    " is not supported by ESPHome API. " ++
    "These types add significant overhead for embedded systems. " ++
    "If you need 64-bit support, please add the necessary encoding/decoding " ++
    "functions to proto.h/proto.cpp first."

/-- Model of `validate_field_type`: raises (returns `.error`) for unsupported
64-bit types. -/
def validate_field_type (fieldType : Nat) (fieldName : String) :
    Except String Unit :=
  match UNSUPPORTED_TYPES fieldType with
  | some tn => .error (unsupported_type_message tn fieldName)
  | none => .ok ()

/-- The type codes present in the `TYPE_INFO` registry (one
`@register_type` class per code; 10 = group is absent). -/
def TYPE_INFO_registered (t : Nat) : Bool :=
  [1, 2, 3, 4, 5, 6, 7, 8, 9, 11, 12, 13, 14, 15, 16, 17, 18].contains t

/-- Python raises `KeyError` on `TYPE_INFO[t]` for an unregistered code. -/
def TYPE_INFO_lookup (t : Nat) : Except String Unit :=
  if TYPE_INFO_registered t then .ok () else .error ("KeyError: " ++ toString t)

/-- The shape of a constructed `TypeInfo` instance: a registered scalar
class, `FixedArrayBytesType`, `RepeatedTypeInfo` wrapping an inner
type-info, or `FixedArrayRepeatedType` wrapping a scalar element type. -/
inductive TInfo where
  | scalar (t : Nat)
  | fixedArrayBytes (size : Nat)
  | repeated (inner : TInfo)
  | fixedArrayRepeated (t : Nat) (size : Nat)
  deriving Repr, DecidableEq

/-- Wire type of each scalar type code, as declared on the registered
classes (`WireType.FIXED64 = 1`, `FIXED32 = 5`, `LENGTH_DELIMITED = 2`,
`VARINT = 0`). -/
def wireTypeOf (t : Nat) : Nat :=
  if t = 1 ∨ t = 6 ∨ t = 16 then 1
  else if t = 2 ∨ t = 7 ∨ t = 15 then 5
  else if t = 9 ∨ t = 11 ∨ t = 12 then 2
  else 0

/-- Model of `TypeInfo.get_fixed_size_bytes` per scalar class: 4 for
float/fixed32/sfixed32, 8 for double/fixed64/sfixed64, `None` otherwise. -/
def get_fixed_size_bytes (t : Nat) : Option Nat :=
  if t = 2 ∨ t = 7 ∨ t = 15 then some 4
  else if t = 1 ∨ t = 6 ∨ t = 16 then some 8
  else none

/-- Dynamic dispatch of `get_fixed_size_bytes`: only the scalar classes
override the base (which returns `None`). -/
def TInfo.fixedSizeBytes : TInfo → Option Nat
  | .scalar t => get_fixed_size_bytes t
  | _ => none

/-- Dynamic dispatch of `wire_type`: wrappers delegate to the inner
type-info; `FixedArrayBytesType` is length-delimited. -/
def TInfo.wireType : TInfo → Nat
  | .scalar t => wireTypeOf t
  | .fixedArrayBytes _ => 2
  | .repeated inner => inner.wireType
  | .fixedArrayRepeated t _ => wireTypeOf t

/-- Model of `RepeatedTypeInfo.__init__`: builds the inner type-info (bytes fields
with `fixed_array_size` become `FixedArrayBytesType`; otherwise the type
is validated and looked up in the registry). -/
def RepeatedTypeInfo_init (f : FieldDesc) : Except String TInfo :=
  match (if f.type = 12 then f.options.fixedArraySize else none) with
  | some n => pure (.repeated (.fixedArrayBytes n))
  | none => do
      let _ ← validate_field_type f.type f.name
      let _ ← TYPE_INFO_lookup f.type
      pure (.repeated (.scalar f.type))

/-- Model of `FixedArrayRepeatedType.__init__`: validates the element type and
looks it up in the registry. -/
def FixedArrayRepeatedType_init (f : FieldDesc) (size : Nat) :
    Except String TInfo := do
  let _ ← validate_field_type f.type f.name
  let _ ← TYPE_INFO_lookup f.type
  pure (.fixedArrayRepeated f.type size)

/-- Model of `create_field_type_info`: selects the `TypeInfo` implementation for a
field, handling repeated fields and the `fixed_array_size` option.  The
`needs_decode` / `needs_encode` flags configure emission only, never
construction, so they are unused here. -/
def create_field_type_info (f : FieldDesc)
    (_needsDecode : Bool := true) (_needsEncode : Bool := true) :
    Except String TInfo :=
  if f.label = 3 then
    match f.options.fixedArraySize with
    | some n => FixedArrayRepeatedType_init f n
    | none => RepeatedTypeInfo_init f
  else
    match (if f.type = 12 then f.options.fixedArraySize else none) with
    | some n => pure (.fixedArrayBytes n)
    | none =>
      if f.type = 12 then pure (.scalar 12)
      else do
        let _ ← validate_field_type f.type f.name
        let _ ← TYPE_INFO_lookup f.type
        pure (.scalar f.type)

/-- Model of `get_estimated_size` data bytes per scalar class (on top of the field
id size): 8 for the fixed 8-byte types, 4 for the fixed 4-byte types, 1
for bool/enum, 8 for string/bytes ("typical"), 16 for messages, 3 for
the varint integer types ("typical varint"). -/
def scalar_estimated_extra (t : Nat) : Nat :=
  if t = 1 ∨ t = 6 ∨ t = 16 then 8
  else if t = 2 ∨ t = 7 ∨ t = 15 then 4
  else if t = 8 ∨ t = 14 then 1
  else if t = 9 ∨ t = 12 then 8
  else if t = 11 then 16
  else 3

/-- Dynamic dispatch of `get_estimated_size`: scalars add their typical
data size to the field id size; `FixedArrayBytesType` estimates
`id + 1 + 31`; `RepeatedTypeInfo` doubles the inner estimate;
`FixedArrayRepeatedType` multiplies the element estimate by the array
size. -/
def TInfo.get_estimated_size (f : FieldDesc) : TInfo → Nat
  | .scalar t => calculate_field_id_size f.number (wireTypeOf t) +
      scalar_estimated_extra t
  | .fixedArrayBytes _ => calculate_field_id_size f.number 2 + 1 + 31
  | .repeated inner => inner.get_estimated_size f * 2
  | .fixedArrayRepeated t size =>
      (calculate_field_id_size f.number (wireTypeOf t) +
        scalar_estimated_extra t) * size

/-- Claim **C5**: for every field whose declared type is double (1), fixed64
(6), sfixed64 (16) or sint64 (18), `create_field_type_info` — on every
construction path, including the repeated and fixed-array wrapper paths —
returns the `ValueError` produced by `validate_field_type`, and that
error message names the unsupported type. -/
theorem create_field_type_info_unsupported (f : FieldDesc) (nd ne : Bool)
    (h : f.type = 1 ∨ f.type = 6 ∨ f.type = 16 ∨ f.type = 18) :
    ∃ tn, UNSUPPORTED_TYPES f.type = some tn ∧
      create_field_type_info f nd ne =
        Except.error (unsupported_type_message tn f.name) ∧
      ∃ s₁ s₂, unsupported_type_message tn f.name = s₁ ++ (tn ++ s₂) := by
  have h12 : f.type ≠ 12 := by rcases h with h | h | h | h <;> omega
  have hu : ∃ tn, UNSUPPORTED_TYPES f.type = some tn := by
    rcases h with h | h | h | h <;> rw [h] <;>
      simp [UNSUPPORTED_TYPES]
  obtain ⟨tn, htn⟩ := hu
  refine ⟨tn, htn, ?_, "64-bit type '",
    "'" ++ (if f.name ≠ "" then " (field: " ++ f.name ++ ")" else "") ++
      " is not supported by ESPHome API. " ++
      "These types add significant overhead for embedded systems. " ++
      "If you need 64-bit support, please add the necessary encoding/decoding " ++
      "functions to proto.h/proto.cpp first.", ?_⟩
  · have hval : validate_field_type f.type f.name =
        .error (unsupported_type_message tn f.name) := by
      simp [validate_field_type, htn]
    by_cases hl : f.label = 3
    · rcases hopt : f.options.fixedArraySize with _ | n <;>
        simp [create_field_type_info, hl, hopt, RepeatedTypeInfo_init,
          FixedArrayRepeatedType_init, h12, hval, Bind.bind, Except.bind]
    · simp [create_field_type_info, hl, h12, hval, Bind.bind, Except.bind]
  · simp [unsupported_type_message, String.append_assoc]

/-- Witness for C5: a double-typed field is rejected with an error naming
"double". -/
theorem create_field_type_info_unsupported_witness :
    ∃ tn, UNSUPPORTED_TYPES (FieldDesc.mk "lat" 1 1 1 "" {}).type = some tn ∧
      create_field_type_info (FieldDesc.mk "lat" 1 1 1 "" {}) true true =
        Except.error
          (unsupported_type_message tn (FieldDesc.mk "lat" 1 1 1 "" {}).name) ∧
      ∃ s₁ s₂,
        unsupported_type_message tn (FieldDesc.mk "lat" 1 1 1 "" {}).name =
          s₁ ++ (tn ++ s₂) :=
  create_field_type_info_unsupported (FieldDesc.mk "lat" 1 1 1 "" {}) true true
    (Or.inl rfl)

/-! ## Size-calculation emission -/

/-- Model of `TypeInfo._get_simple_size_calculation`: appends `_repeated` to the
base method when forced. -/
def simple_size_calc (baseMethod : String) (fieldIdSize : Nat)
    (value : String) (force : Bool) : String :=
  "ProtoSize::" ++ (if force then baseMethod ++ "_repeated" else baseMethod) ++
    "(total_size, " ++ toString fieldIdSize ++ ", " ++ value ++ ");"

/-- Model of `get_size_calculation` of each registered scalar class.  The fixed
width classes (double, float, fixed32/64, sfixed32/64) ignore `force`;
the varint/string/message classes go through
`_get_simple_size_calculation`; bytes uses the stored length field. -/
def scalar_size_calc (t : Nat) (f : FieldDesc) (name : String)
    (force : Bool) : String :=
  let fid := calculate_field_id_size f.number (wireTypeOf t)
  if t = 1 then
    "ProtoSize::add_double_field(total_size, " ++ toString fid ++ ", " ++
      name ++ ");"
  else if t = 2 then
    "ProtoSize::add_float_field(total_size, " ++ toString fid ++ ", " ++
      name ++ ");"
  else if t = 3 then simple_size_calc "add_int64_field" fid name force
  else if t = 4 then simple_size_calc "add_uint64_field" fid name force
  else if t = 5 then simple_size_calc "add_int32_field" fid name force
  else if t = 6 then
    "ProtoSize::add_fixed64_field(total_size, " ++ toString fid ++ ", " ++
      name ++ ");"
  else if t = 7 then
    "ProtoSize::add_fixed32_field(total_size, " ++ toString fid ++ ", " ++
      name ++ ");"
  else if t = 8 then simple_size_calc "add_bool_field" fid name force
  else if t = 9 then simple_size_calc "add_string_field" fid name force
  else if t = 11 then simple_size_calc "add_message_object" fid name force
  else if t = 12 then
    "ProtoSize::add_bytes_field(total_size, " ++ toString fid ++
      ", this->" ++ f.name ++ "_len_);"
  else if t = 13 then simple_size_calc "add_uint32_field" fid name force
  else if t = 14 then
    simple_size_calc "add_enum_field" fid
      ("static_cast<uint32_t>(" ++ name ++ ")") force
  else if t = 15 then
    "ProtoSize::add_sfixed32_field(total_size, " ++ toString fid ++ ", " ++
      name ++ ");"
  else if t = 16 then
    "ProtoSize::add_sfixed64_field(total_size, " ++ toString fid ++ ", " ++
      name ++ ");"
  else if t = 17 then simple_size_calc "add_sint32_field" fid name force
  else if t = 18 then simple_size_calc "add_sint64_field" fid name force
  else ""

/-- Model of `FixedArrayBytesType.get_size_calculation`: uses the stored `_len`
field; skips empty payloads unless forced. -/
def fixed_array_bytes_size_calc (f : FieldDesc) (fid : Nat)
    (force : Bool) : String :=
  let lengthField := "this->" ++ f.name ++ "_len"
  if force then
    "total_size += " ++ toString fid ++
      " + ProtoSize::varint(static_cast<uint32_t>(" ++ lengthField ++
      ")) + " ++ lengthField ++ ";"
  else
    "if (" ++ lengthField ++ " != 0) \x7b\n" ++
      "  total_size += " ++ toString fid ++
      " + ProtoSize::varint(static_cast<uint32_t>(" ++ lengthField ++
      ")) + " ++ lengthField ++ ";\n" ++ "\x7d"

/-- Model of `get_size_calculation` with dynamic dispatch over the constructed
type-info.  `RepeatedTypeInfo.get_size_calculation`: repeated messages
use the dedicated helper; inner types with a fixed byte count take the
count-times-constant fast path; all others iterate, forcing every
element (`force=True`); `FixedArrayRepeatedType` unrolls sizes 1 and 2
and loops otherwise. -/
def TInfo.get_size_calculation (f : FieldDesc) (ti : TInfo) (name : String)
    (force : Bool := false) : String :=
  match ti with
  | .scalar t => scalar_size_calc t f name force
  | .fixedArrayBytes _ =>
      fixed_array_bytes_size_calc f (calculate_field_id_size f.number 2) force
  | .repeated inner =>
      if inner = .scalar 11 then
        "ProtoSize::add_repeated_message(total_size, " ++
          toString (calculate_field_id_size f.number inner.wireType) ++
          ", " ++ name ++ ");"
      else
        match inner.fixedSizeBytes with
        | some numBytes =>
          "if (!" ++ name ++ ".empty()) \x7b\n" ++
            "  total_size += " ++ name ++ ".size() * " ++
            toString (calculate_field_id_size f.number inner.wireType +
              numBytes) ++ ";\n" ++ "\x7d"
        | none =>
          "if (!" ++ name ++ ".empty()) \x7b\n" ++
            "  for (const auto " ++
            (if inner = .scalar 8 then "" else "&") ++ "it : " ++ name ++
            ") \x7b\n" ++
            "    " ++ TInfo.get_size_calculation f inner "it" true ++ "\n" ++
            "  \x7d\n" ++ "\x7d"
  | .fixedArrayRepeated t size =>
      if size = 1 then scalar_size_calc t f (name ++ "[0]") true
      else if size = 2 then
        scalar_size_calc t f (name ++ "[0]") true ++ "\n  " ++
          scalar_size_calc t f (name ++ "[1]") true
      else
        "for (const auto &it : " ++ name ++ ") \x7b\n" ++
          "  " ++ scalar_size_calc t f "it" true ++ "\n" ++ "\x7d"

/-! ## Fixed-array bytes decoding -/

/-- Model of `FixedArrayBytesType.decode_length_content`: the emitted decode case
stores the payload length, clamps it to the array size, then memcpy's
that many bytes. -/
def FixedArrayBytesType_decode_length_content (f : FieldDesc)
    (size : Nat) : String :=
  "case " ++ toString f.number ++ ": \x7b\n" ++
    "  const std::string &data_str = value.as_string();\n" ++
    "  this->" ++ f.name ++ "_len = data_str.size();\n" ++
    "  if (this->" ++ f.name ++ "_len > " ++ toString size ++ ") \x7b\n" ++
    "    this->" ++ f.name ++ "_len = " ++ toString size ++ ";\n" ++
    "  \x7d\n" ++
    "  memcpy(this->" ++ f.name ++ ", data_str.data(), this->" ++ f.name ++
    "_len);\n" ++
    "  break;\n" ++ "\x7d"

/-- The length-store statement of the emitted decode case. -/
def fabStoreLenStmt (f : FieldDesc) : String :=
  "  this->" ++ f.name ++ "_len = data_str.size();\n"

/-- The clamp statement of the emitted decode case. -/
def fabClampStmt (f : FieldDesc) (size : Nat) : String :=
  "  if (this->" ++ f.name ++ "_len > " ++ toString size ++ ") \x7b\n" ++
    "    this->" ++ f.name ++ "_len = " ++ toString size ++ ";\n" ++
    "  \x7d\n"

/-- The memcpy statement of the emitted decode case; it copies
`this->field_len` bytes, i.e. the clamped length. -/
def fabMemcpyStmt (f : FieldDesc) : String :=
  "  memcpy(this->" ++ f.name ++ ", data_str.data(), this->" ++ f.name ++
    "_len);\n"

/-- Value-level semantics of the emitted clamp: the length that the
generated C++ stores in `field_len` before the memcpy runs. -/
def fabDecodedLen (size payloadLen : Nat) : Nat :=
  if payloadLen > size then size else payloadLen

/-- Value-level semantics of the emitted memcpy: the bytes that end up
in the fixed buffer. -/
def fabDecodedBytes (size : Nat) (payload : List Nat) : List Nat :=
  payload.take (fabDecodedLen size payload.length)

/-- Claim **C9**: for every non-repeated bytes field with `fixed_array_size N`,
the decode case emitted by `FixedArrayBytesType.decode_length_content`
stores the received payload length, clamps it to `N`, and only then
memcpy's the clamped length: the emitted text is exactly
store-then-clamp-then-memcpy, the effective copied length is
`min payloadLen N`, so oversized payloads are silently truncated and at
most `N` bytes are copied into the fixed buffer. -/
theorem fixed_array_bytes_decode_truncates (f : FieldDesc) (size : Nat) :
    (FixedArrayBytesType_decode_length_content f size =
      "case " ++ toString f.number ++ ": \x7b\n" ++
        "  const std::string &data_str = value.as_string();\n" ++
        fabStoreLenStmt f ++ fabClampStmt f size ++ fabMemcpyStmt f ++
        "  break;\n" ++ "\x7d") ∧
    (∀ payloadLen, fabDecodedLen size payloadLen = min payloadLen size) ∧
    (∀ payloadLen, fabDecodedLen size payloadLen ≤ size) ∧
    (∀ payload : List Nat, (fabDecodedBytes size payload).length ≤ size) ∧
    (∀ payload : List Nat, payload.length ≤ size →
      fabDecodedBytes size payload = payload) := by
  refine ⟨?_, ?_, ?_, ?_, ?_⟩
  · simp only [FixedArrayBytesType_decode_length_content, fabStoreLenStmt,
      fabClampStmt, fabMemcpyStmt, String.append_assoc]
  · intro payloadLen
    simp only [fabDecodedLen]
    split_ifs with h <;> omega
  · intro payloadLen
    simp only [fabDecodedLen]
    split_ifs with h <;> omega
  · intro payload
    simp only [fabDecodedBytes, List.length_take, fabDecodedLen]
    split_ifs with h <;> omega
  · intro payload h
    simp only [fabDecodedBytes, fabDecodedLen]
    rw [if_neg (by omega)]
    exact List.take_length payload

/-- Witness for C9 on a concrete field and an oversized payload. -/
theorem fixed_array_bytes_decode_truncates_witness :
    fabDecodedBytes 4 [10, 11, 12, 13] = [10, 11, 12, 13] :=
  (fixed_array_bytes_decode_truncates (FieldDesc.mk "data" 1 1 12 "" {}) 4).2.2.2.2
    [10, 11, 12, 13] (by decide)

/-- Claim **C6 (amended)**: `RepeatedTypeInfo.get_size_calculation` emits the
constant-multiplication fast path exactly when the inner type reports a
fixed wire width via `get_fixed_size_bytes`; among inner types that
`RepeatedTypeInfo` can actually be constructed with, those are float (2),
fixed32 (7) and sfixed32 (15) — the 8-byte double/fixed64/sfixed64 are
rejected at construction — and every other constructible non-message
inner scalar type gets a per-element loop forcing each element's
contribution (message-typed elements use the dedicated
`add_repeated_message` helper). -/
theorem repeated_size_calc_cases (f : FieldDesc) (name : String) (t : Nat) :
    (t = 2 ∨ t = 7 ∨ t = 15 →
      TInfo.get_size_calculation f (.repeated (.scalar t)) name false =
        "if (!" ++ name ++ ".empty()) \x7b\n" ++
          "  total_size += " ++ name ++ ".size() * " ++
          toString (calculate_field_id_size f.number (wireTypeOf t) + 4) ++
          ";\n" ++ "\x7d") ∧
    (t = 3 ∨ t = 4 ∨ t = 5 ∨ t = 9 ∨ t = 12 ∨ t = 13 ∨ t = 14 ∨ t = 17 ∨
        t = 18 →
      TInfo.get_size_calculation f (.repeated (.scalar t)) name false =
        "if (!" ++ name ++ ".empty()) \x7b\n" ++
          "  for (const auto " ++ "&" ++ "it : " ++ name ++ ") \x7b\n" ++
          "    " ++ scalar_size_calc t f "it" true ++ "\n" ++
          "  \x7d\n" ++ "\x7d") ∧
    (t = 8 →
      TInfo.get_size_calculation f (.repeated (.scalar t)) name false =
        "if (!" ++ name ++ ".empty()) \x7b\n" ++
          "  for (const auto " ++ "" ++ "it : " ++ name ++ ") \x7b\n" ++
          "    " ++ scalar_size_calc t f "it" true ++ "\n" ++
          "  \x7d\n" ++ "\x7d") ∧
    (t = 11 →
      TInfo.get_size_calculation f (.repeated (.scalar t)) name false =
        "ProtoSize::add_repeated_message(total_size, " ++
          toString (calculate_field_id_size f.number (wireTypeOf t)) ++
          ", " ++ name ++ ");") ∧
    ((∃ b, TInfo.fixedSizeBytes (.scalar t) = some b) ↔
      t = 1 ∨ t = 2 ∨ t = 6 ∨ t = 7 ∨ t = 15 ∨ t = 16) := by
  refine ⟨?_, ?_, ?_, ?_, ?_⟩
  · rintro (rfl | rfl | rfl) <;>
      simp [TInfo.get_size_calculation, TInfo.fixedSizeBytes,
        get_fixed_size_bytes, TInfo.wireType]
  · rintro (rfl | rfl | rfl | rfl | rfl | rfl | rfl | rfl | rfl) <;>
      simp [TInfo.get_size_calculation, TInfo.fixedSizeBytes,
        get_fixed_size_bytes, TInfo.wireType]
  · rintro rfl
    simp [TInfo.get_size_calculation, TInfo.fixedSizeBytes,
      get_fixed_size_bytes, TInfo.wireType]
  · rintro rfl
    simp [TInfo.get_size_calculation, TInfo.wireType]
  · constructor
    · rintro ⟨b, hb⟩
      simp only [TInfo.fixedSizeBytes, get_fixed_size_bytes] at hb
      split_ifs at hb <;> omega
    · rintro (rfl | rfl | rfl | rfl | rfl | rfl) <;>
      simp [TInfo.fixedSizeBytes, get_fixed_size_bytes]

/-- Witness for C6 (amended): a repeated fixed32 field takes the fast
path. -/
theorem repeated_size_calc_cases_witness :
    TInfo.get_size_calculation (FieldDesc.mk "xs" 1 3 7 "" {})
        (.repeated (.scalar 7)) "this->xs" false =
      "if (!" ++ "this->xs" ++ ".empty()) \x7b\n" ++
        "  total_size += " ++ "this->xs" ++ ".size() * " ++
        toString (calculate_field_id_size 1 (wireTypeOf 7) + 4) ++
        ";\n" ++ "\x7d" :=
  (repeated_size_calc_cases (FieldDesc.mk "xs" 1 3 7 "" {}) "this->xs" 7).1
    (Or.inr (Or.inl rfl))

/-- Counterexample to C6 as stated: a repeated *float* field (float is
not among fixed32/fixed64/sfixed32/sfixed64) nevertheless takes the
constant-multiplication fast path — the emitted text is the
multiplication, not the per-element loop the claim requires for float. -/
theorem repeated_float_fast_path_counterexample :
    create_field_type_info (FieldDesc.mk "vals" 1 3 2 "" {}) true true =
      Except.ok (.repeated (.scalar 2)) ∧
    TInfo.get_size_calculation (FieldDesc.mk "vals" 1 3 2 "" {})
        (.repeated (.scalar 2)) "this->vals" false =
      "if (!this->vals.empty()) \x7b\n  total_size += this->vals.size() * 5;\n\x7d" ∧
    TInfo.get_size_calculation (FieldDesc.mk "vals" 1 3 2 "" {})
        (.repeated (.scalar 2)) "this->vals" false ≠
      "if (!this->vals.empty()) \x7b\n" ++
        "  for (const auto &it : this->vals) \x7b\n" ++
        "    " ++ scalar_size_calc 2 (FieldDesc.mk "vals" 1 3 2 "" {}) "it" true ++
        "\n" ++ "  \x7d\n" ++ "\x7d" := by
  refine ⟨rfl, by decide, by decide⟩

/-! ## Message-level estimation and validation -/

/-- Worker for `calculate_message_estimated_size`: folds the per-field
estimates, skipping deprecated fields; a `ValueError` raised while
constructing a type-info propagates. -/
def estimate_fields : List FieldDesc → Nat → Except String Nat
  | [], acc => .ok acc
  | f :: rest, acc =>
    if f.options.deprecated then estimate_fields rest acc
    else
      match create_field_type_info f with
      | .error e => .error e
      | .ok ti => estimate_fields rest (acc + ti.get_estimated_size f)

/-- Model of `calculate_message_estimated_size`: sums the per-field estimates of
the non-deprecated fields of a message. -/
def calculate_message_estimated_size (desc : MsgDesc) : Except String Nat :=
  estimate_fields desc.field 0

/-- The per-field contribution to the message estimate. -/
def field_estimate (f : FieldDesc) : Nat :=
  match create_field_type_info f with
  | .ok ti => ti.get_estimated_size f
  | .error _ => 0

/-- Modelled from the spec: the byte cost of one encoded string/bytes
field produced by the wire encoder (`proto.h`, which is not under
`src/`): a default (empty, unforced) value is omitted entirely
("default omitted"); otherwise the tag is followed by a varint length
prefix and the payload bytes. -/
def encodedStringFieldSize (number len : Nat) (force : Bool) : Nat :=
  if len = 0 ∧ force = false then 0
  else calculate_field_id_size number 2 + varintLen len + len

theorem estimate_fields_sum (l : List FieldDesc) (acc : Nat)
    (h : ∀ f ∈ l, f.options.deprecated = false →
      ∃ ti, create_field_type_info f = .ok ti) :
    estimate_fields l acc =
      .ok (acc + ((l.filter fun f => !f.options.deprecated).map
        field_estimate).sum) := by
  induction l generalizing acc with
  | nil => simp [estimate_fields]
  | cons a rest ih =>
    by_cases hd : a.options.deprecated
    · simpa [estimate_fields, hd] using
        ih acc (fun f hf => h f (List.mem_cons_of_mem a hf))
    · obtain ⟨ti, hti⟩ := h a (List.mem_cons_self a rest) (by simpa using hd)
      have := ih (acc + ti.get_estimated_size a)
        (fun f hf => h f (List.mem_cons_of_mem a hf))
      simp only [estimate_fields, hd, if_false, hti]
      rw [this]
      simp [field_estimate, hti, hd]
      omega

/-- Message used in the C4 analysis: a single non-deprecated string
field with number 1. -/
def oneStringMsg : MsgDesc :=
  { name := "S", field := [FieldDesc.mk "s" 1 1 9 "" {}] }

/-- Claim **C4 (amended)**: `calculate_message_estimated_size` is the sum of
fixed per-field typical-value estimates over the non-deprecated fields;
it is *not* an upper bound on the encoded size over all representable
values: for a message with one string field (estimate 9 = 1 tag byte +
8 "typical" bytes), every string of length 8..127 already encodes to
more than the estimate. -/
theorem calculate_message_estimated_size_sum (desc : MsgDesc)
    (h : ∀ f ∈ desc.field, f.options.deprecated = false →
      ∃ ti, create_field_type_info f = .ok ti) :
    calculate_message_estimated_size desc =
      .ok (((desc.field.filter fun f => !f.options.deprecated).map
        field_estimate).sum) ∧
    calculate_message_estimated_size oneStringMsg = .ok 9 ∧
    (∀ L, 8 ≤ L → L < 128 → 9 < encodedStringFieldSize 1 L false) := by
  refine ⟨?_, rfl, ?_⟩
  · simpa using estimate_fields_sum desc.field 0 h
  · intro L h1 h2
    have hc : calculate_field_id_size 1 2 = 1 := by decide
    simp only [encodedStringFieldSize]
    rw [if_neg (by omega), varintLen_one h2, hc]
    omega

/-- Witness for C4 (amended) on the one-string-field message. -/
theorem calculate_message_estimated_size_sum_witness :
    calculate_message_estimated_size oneStringMsg =
      .ok (((oneStringMsg.field.filter fun f => !f.options.deprecated).map
        field_estimate).sum) :=
  (calculate_message_estimated_size_sum oneStringMsg
    (by intro f hf _; exact ⟨.scalar 9, by
      simp only [oneStringMsg, List.mem_singleton] at hf
      subst hf; rfl⟩)).1

/-- Counterexample to C4 as stated: the estimate for the one-string-field
message is 9 bytes, but encoding a 100-character string in that field
produces 102 bytes (1 tag + 1 length + 100 payload), exceeding the
"conservative upper bound". -/
theorem estimator_not_upper_bound_counterexample :
    calculate_message_estimated_size oneStringMsg = .ok 9 ∧
    encodedStringFieldSize 1 100 false = 102 ∧ 9 < 102 :=
  ⟨rfl, by decide, by omega⟩

/-- The `ValueError` message for an oversized message id. -/
def message_id_error (mid : Nat) (descName : String) : String :=
  "Message ID " ++ toString mid ++ " for " ++ descName ++
    " exceeds uint8_t maximum (255)"

/-- The `ValueError` message for an oversized estimated size. -/
def estimated_size_error (est : Nat) (descName : String) : String :=
  "Estimated size " ++ toString est ++ " for " ++ descName ++
    " exceeds uint8_t maximum (255)"

/-- The `ValueError` message for `fixed_array_size` on a decodable
message. -/
def fixed_array_size_error (descName fieldName : String) (source : Nat) :
    String :=
  "Message '" ++ descName ++ "' uses fixed_array_size on field '" ++
    fieldName ++ "' " ++ "but has source=" ++ SOURCE_NAMES source ++ ". " ++
    "Fixed arrays are only supported for SOURCE_SERVER (encode-only) messages " ++
    "since we cannot trust or control the number of items received from clients."

/-- The per-field validation loop of `build_message_type` (lines
1419-1437): skips deprecated fields, raises when a repeated field
carries `fixed_array_size` on a message that needs decoding, then
constructs the field's type-info (which itself can raise).  The string
emission of `build_message_type` cannot raise and is omitted. -/
def validate_fields (descName : String) (source : Nat)
    (needsDecode needsEncode : Bool) : List FieldDesc → Except String Unit
  | [] => .ok ()
  | f :: rest =>
    if f.options.deprecated then
      validate_fields descName source needsDecode needsEncode rest
    else if needsDecode && decide (f.label = 3) &&
        (f.options.fixedArraySize).isSome then
      .error (fixed_array_size_error descName f.name source)
    else
      match create_field_type_info f needsDecode needsEncode with
      | .error e => .error e
      | .ok _ => validate_fields descName source needsDecode needsEncode rest

/-- The raising behaviour of `build_message_type`: looks up the message's
source direction, validates the message id and estimated size for
service messages, then runs the per-field validation loop.  All other
work of `build_message_type` is pure string assembly that cannot
raise. -/
def build_message_type_validate (desc : MsgDesc)
    (msm : String → Option Nat) : Except String Unit :=
  match msm desc.name with
  | none => .error ("KeyError: " ++ desc.name)
  | some source =>
    let needsDecode : Bool := source == SOURCE_BOTH || source == SOURCE_CLIENT
    let needsEncode : Bool := source == SOURCE_BOTH || source == SOURCE_SERVER
    match desc.options.id with
    | some mid =>
      if mid > 255 then .error (message_id_error mid desc.name)
      else
        match calculate_message_estimated_size desc with
        | .error e => .error e
        | .ok est =>
          if est > 255 then .error (estimated_size_error est desc.name)
          else validate_fields desc.name source needsDecode needsEncode desc.field
    | none => validate_fields desc.name source needsDecode needsEncode desc.field

theorem validate_fields_not_ok (descName : String) (source : Nat)
    (ne : Bool) (l : List FieldDesc) (fl : FieldDesc) (hmem : fl ∈ l)
    (hdep : fl.options.deprecated = false) (hlabel : fl.label = 3)
    (hfixed : (fl.options.fixedArraySize).isSome) :
    validate_fields descName source true ne l ≠ Except.ok () := by
  induction l with
  | nil => cases hmem
  | cons a rest ih =>
    rcases List.mem_cons.mp hmem with rfl | hmem'
    · simp [validate_fields, hdep, hlabel, hfixed]
    · by_cases hd : a.options.deprecated
      · simpa [validate_fields, hd] using ih hmem'
      · by_cases hcond : a.label = 3 ∧ (a.options.fixedArraySize).isSome = true
        · simp [validate_fields, hd, hcond]
        · rcases hc : create_field_type_info a true ne with e | ti
          · simp [validate_fields, hd, hcond, hc]
          · simpa [validate_fields, hd, hcond, hc] using ih hmem'

/-- Claim **C3 (amended)**: for every *repeated* field carrying the
`fixed_array_size` option in a message whose source direction includes
decode (`SOURCE_BOTH` or `SOURCE_CLIENT`), `build_message_type` raises a
`ValueError` — validation never succeeds, so no such schema reaches code
emission.  (Non-repeated bytes fields with `fixed_array_size` are
exempt: they get the clamping `FixedArrayBytesType` decode path.) -/
theorem fixed_array_repeated_decode_rejected (desc : MsgDesc)
    (msm : String → Option Nat) (s : Nat) (hs : msm desc.name = some s)
    (hdec : s = SOURCE_BOTH ∨ s = SOURCE_CLIENT) (fl : FieldDesc)
    (hmem : fl ∈ desc.field) (hdep : fl.options.deprecated = false)
    (hlabel : fl.label = 3) (hfixed : (fl.options.fixedArraySize).isSome) :
    build_message_type_validate desc msm ≠ Except.ok () := by
  have hnd : (s == SOURCE_BOTH || s == SOURCE_CLIENT) = true := by
    rcases hdec with rfl | rfl <;> simp
  simp only [build_message_type_validate, hs, hnd]
  rcases desc.options.id with _ | mid
  · exact validate_fields_not_ok desc.name s _ desc.field fl hmem hdep
      hlabel hfixed
  · simp only
    split_ifs with h1
    · simp
    · rcases hest : calculate_message_estimated_size desc with e | est
      · simp
      · simp only
        split_ifs with h2
        · simp
        · exact validate_fields_not_ok desc.name s _ desc.field fl hmem
            hdep hlabel hfixed

/-- Witness for C3 (amended): a decode-direction message with a repeated
fixed-array field fails validation. -/
theorem fixed_array_repeated_decode_rejected_witness :
    build_message_type_validate
        (MsgDesc.mk "M" [FieldDesc.mk "xs" 1 3 13 ""
          { fixedArraySize := some 2 }] {})
        (fun _ => some SOURCE_CLIENT) ≠ Except.ok () :=
  fixed_array_repeated_decode_rejected
    (MsgDesc.mk "M" [FieldDesc.mk "xs" 1 3 13 "" { fixedArraySize := some 2 }] {})
    (fun _ => some SOURCE_CLIENT) SOURCE_CLIENT rfl (Or.inr rfl)
    (FieldDesc.mk "xs" 1 3 13 "" { fixedArraySize := some 2 })
    (List.mem_singleton.mpr rfl) rfl rfl rfl

/-- Counterexample to C3 as stated: a *non-repeated* bytes field carrying
`fixed_array_size` on a decode-direction (`SOURCE_CLIENT`) message
passes `build_message_type` validation — no `ValueError` is raised, and
the schema reaches emission with the silently-clamping
`FixedArrayBytesType` decode path. -/
theorem fixed_array_bytes_decode_not_rejected_counterexample :
    build_message_type_validate
        (MsgDesc.mk "M" [FieldDesc.mk "data" 1 1 12 ""
          { fixedArraySize := some 4 }] {})
        (fun _ => some SOURCE_CLIENT) = Except.ok () ∧
    create_field_type_info
        (FieldDesc.mk "data" 1 1 12 "" { fixedArraySize := some 4 })
        true false = Except.ok (.fixedArrayBytes 4) :=
  ⟨rfl, rfl⟩

/-! ## Cross-schema analyzer: usage graph -/

/-- Worker for `lastComponent`: scans the characters, restarting the
accumulator at every dot. -/
def lastComponentAux : List Char → List Char → List Char
  | [], cur => cur.reverse
  | c :: rest, cur =>
      if c = '.' then lastComponentAux rest []
      else lastComponentAux rest (c :: cur)

/-- Model of `type_name.split(".")[-1]`: the last dot-separated component of a
qualified type name (`".Foo" ↦ "Foo"`). -/
def lastComponent (s : String) : String := ⟨lastComponentAux s.data []⟩

/-- Model of `type_name = field.type_name.split(".")[-1] if field.type_name else
None`: the unqualified type name of a field, or `none` for an empty
`type_name`. -/
def type_name_last (fl : FieldDesc) : Option String :=
  if fl.typeName = "" then none else some (lastComponent fl.typeName)

/-- Model of `message_usage`: the (non-deprecated) messages that reference
`tname` through a non-deprecated message-typed (`TYPE_MESSAGE = 11`)
field.  Python stores a set of names; each message contributes its name
at most once here, so the list is an enumeration of that set. -/
def message_usage (fd : FileDesc) (tname : String) : List String :=
  (fd.message_type.filter fun m => !m.options.deprecated).filterMap
    fun m =>
      if m.field.any (fun fl => !fl.options.deprecated &&
          fl.type == 11 && type_name_last fl == some tname)
      then some m.name else none

/-- Model of `message_field_ifdefs`: the `field_ifdef` option (possibly absent)
of every non-deprecated message-typed field referencing `tname` from a
non-deprecated message. -/
def message_field_ifdefs (fd : FileDesc) (tname : String) :
    List (Option String) :=
  (fd.message_type.filter fun m => !m.options.deprecated).flatMap
    fun m =>
      (m.field.filter fun fl => !fl.options.deprecated &&
          fl.type == 11 && type_name_last fl == some tname).map
        fun fl => fl.options.fieldIfdef

/-- Functional update of a string-keyed dictionary entry. -/
def mapUpdate {α : Type} (m : String → Option α) (k : String) (v : α) :
    String → Option α :=
  fun x => if x = k then some v else m x

/-! ## Cross-schema analyzer: source-direction inference -/

/-- First pass of the source map: messages with an explicit `source`
option keep it; messages with only an `id` default to `SOURCE_BOTH`;
deprecated messages are skipped. -/
def sourcePass1 : List MsgDesc → (String → Option Nat) →
    (String → Option Nat)
  | [], m => m
  | msg :: rest, m =>
    if msg.options.deprecated then sourcePass1 rest m
    else
      match msg.options.source with
      | some s => sourcePass1 rest (mapUpdate m msg.name s)
      | none =>
        match msg.options.id with
        | some _ => sourcePass1 rest (mapUpdate m msg.name SOURCE_BOTH)
        | none => sourcePass1 rest m

/-- How the second pass combines the distinct parent sources: no parent
with a known source defaults to encode-only (`SOURCE_SERVER`); a single
known parent source is inherited; several distinct parent sources give
`SOURCE_BOTH`. -/
def combineParentSources : List Nat → Nat
  | [] => SOURCE_SERVER
  | [s] => s
  | _ => SOURCE_BOTH

/-- Second pass of the source map (`build_type_usage_map`, lines
1274-1299): each message without an entry gets one derived from the
sources of the messages that use it, as recorded in the map built so
far; unused messages default to `SOURCE_SERVER`. -/
def sourcePass2 (fd : FileDesc) : List MsgDesc → (String → Option Nat) →
    (String → Option Nat)
  | [], m => m
  | msg :: rest, m =>
    if (m msg.name).isSome then sourcePass2 fd rest m
    else if (message_usage fd msg.name).isEmpty then
      sourcePass2 fd rest (mapUpdate m msg.name SOURCE_SERVER)
    else
      sourcePass2 fd rest (mapUpdate m msg.name
        (combineParentSources
          (((message_usage fd msg.name).filterMap m).dedup)))

/-- The `message_source_map` produced by `build_type_usage_map`. -/
def build_message_source_map (fd : FileDesc) : String → Option Nat :=
  sourcePass2 fd fd.message_type (sourcePass1 fd.message_type fun _ => none)

theorem mapUpdate_ne {α : Type} (m : String → Option α) (k : String)
    (v : α) (x : String) (h : k ≠ x) : mapUpdate m k v x = m x := by
  simp only [mapUpdate]
  rw [if_neg (fun he => h he.symm)]

theorem sourcePass1_none (l : List MsgDesc) (m : String → Option Nat)
    (name : String)
    (h : ∀ msg ∈ l, msg.name = name →
      msg.options.deprecated = true ∨
        (msg.options.source = none ∧ msg.options.id = none)) :
    sourcePass1 l m name = m name := by
  induction l generalizing m with
  | nil => rfl
  | cons a rest ih =>
    have ha := h a (List.mem_cons_self a rest)
    have hrest : ∀ msg ∈ rest, msg.name = name →
        msg.options.deprecated = true ∨
          (msg.options.source = none ∧ msg.options.id = none) :=
      fun msg hm => h msg (List.mem_cons_of_mem a hm)
    by_cases hd : a.options.deprecated
    · simpa [sourcePass1, hd] using ih m hrest
    · rcases hsrc : a.options.source with _ | s
      · rcases hid : a.options.id with _ | i
        · simpa [sourcePass1, hd, hsrc, hid] using ih m hrest
        · have hne : a.name ≠ name := by
            intro he
            rcases ha he with h1 | ⟨_, h2⟩
            · exact hd (by simpa using h1)
            · rw [hid] at h2; cases h2
          simp only [sourcePass1, hd, Bool.false_eq_true, if_false, hsrc, hid]
          rw [ih _ hrest, mapUpdate_ne m a.name _ name hne]
      · have hne : a.name ≠ name := by
          intro he
          rcases ha he with h1 | ⟨h2, _⟩
          · exact hd (by simpa using h1)
          · rw [hsrc] at h2; cases h2
        simp only [sourcePass1, hd, Bool.false_eq_true, if_false, hsrc]
        rw [ih _ hrest, mapUpdate_ne m a.name _ name hne]

theorem sourcePass2_preserve (fd : FileDesc) (l : List MsgDesc)
    (m : String → Option Nat) (name : String) (h : (m name).isSome) :
    sourcePass2 fd l m name = m name := by
  induction l generalizing m with
  | nil => rfl
  | cons a rest ih =>
    by_cases hs : (m a.name).isSome
    · simpa [sourcePass2, hs] using ih m h
    · have hne : a.name ≠ name := by
        intro he; rw [he] at hs; exact hs h
      have hupd : ∀ v, mapUpdate m a.name v name = m name := fun v =>
        mapUpdate_ne m a.name v name hne
      have hupd2 : ∀ v, (mapUpdate m a.name v name).isSome := by
        intro v; rw [hupd v]; exact h
      rw [sourcePass2]
      simp only [hs, Bool.false_eq_true, if_false]
      by_cases hemp : (message_usage fd a.name).isEmpty
      · rw [if_pos hemp, ih _ (hupd2 _), hupd]
      · rw [if_neg hemp, ih _ (hupd2 _), hupd]

theorem sourcePass2_compute (fd : FileDesc) (l : List MsgDesc)
    (m : String → Option Nat) (msg : MsgDesc) (hmem : msg ∈ l)
    (huniq : ∀ m' ∈ l, m'.name = msg.name → m' = msg)
    (hnone : m msg.name = none)
    (husers : ∀ u ∈ message_usage fd msg.name, (m u).isSome) :
    sourcePass2 fd l m msg.name =
      some (combineParentSources
        (((message_usage fd msg.name).filterMap m).dedup)) := by
  induction l generalizing m with
  | nil => cases hmem
  | cons a rest ih =>
    by_cases ha : a = msg
    · subst ha
      have hs : ¬(m a.name).isSome := by simp [hnone]
      have hset : ∀ v, mapUpdate m a.name v a.name = some v := by
        intro v; simp [mapUpdate]
      rw [sourcePass2]
      simp only [hs, Bool.false_eq_true, if_false]
      by_cases hemp : (message_usage fd a.name).isEmpty
      · rw [if_pos hemp]
        rw [sourcePass2_preserve fd rest _ _ (by rw [hset]; rfl), hset]
        have hzero : message_usage fd a.name = [] :=
          List.isEmpty_iff.mp hemp
        rw [hzero]
        rfl
      · rw [if_neg hemp]
        rw [sourcePass2_preserve fd rest _ _ (by rw [hset]; rfl), hset]
    · have hmem' : msg ∈ rest := by
        rcases List.mem_cons.mp hmem with he | h'
        · exact absurd he.symm ha
        · exact h'
      have hname : a.name ≠ msg.name := by
        intro he
        exact ha (huniq a (List.mem_cons_self a rest) he)
      have huniq' : ∀ m' ∈ rest, m'.name = msg.name → m' = msg :=
        fun m' hm' => huniq m' (List.mem_cons_of_mem a hm')
      by_cases hs : (m a.name).isSome
      · simpa [sourcePass2, hs] using ih m hmem' huniq' hnone husers
      · have hanotuser : ∀ u ∈ message_usage fd msg.name, a.name ≠ u := by
          intro u hu he
          subst he
          exact hs (husers _ hu)
        have key : ∀ v, sourcePass2 fd rest (mapUpdate m a.name v) msg.name =
            some (combineParentSources
              (((message_usage fd msg.name).filterMap m).dedup)) := by
          intro v
          have hnone' : mapUpdate m a.name v msg.name = none := by
            rw [mapUpdate_ne m a.name v msg.name hname]; exact hnone
          have husers' : ∀ u ∈ message_usage fd msg.name,
              ((mapUpdate m a.name v) u).isSome := by
            intro u hu
            rw [mapUpdate_ne m a.name v u (hanotuser u hu)]
            exact husers u hu
          have hfm : (message_usage fd msg.name).filterMap
              (mapUpdate m a.name v) =
              (message_usage fd msg.name).filterMap m := by
            apply List.filterMap_congr
            intro u hu
            exact mapUpdate_ne m a.name v u (hanotuser u hu)
          rw [ih _ hmem' huniq' hnone' husers', hfm]
        rw [sourcePass2]
        simp only [hs, Bool.false_eq_true, if_false]
        by_cases hemp : (message_usage fd a.name).isEmpty
        · rw [if_pos hemp]; exact key _
        · rw [if_neg hemp]; exact key _

/-- Claim **C2 (amended)**: in the second pass of `build_type_usage_map`, a
message with no explicit `source` option and no `id`, all of whose
referencing messages carry an explicit `source` or an `id` (so their
direction is fixed by the first pass), is assigned: the single parent
direction when all parents agree (including `SOURCE_BOTH`);
`SOURCE_BOTH` — *not* encode-only — when the parents' directions are
mixed; and the encode-only default `SOURCE_SERVER` when it is
unreferenced or no parent's direction is determinable. -/
theorem source_direction_inference (fd : FileDesc) (msg : MsgDesc)
    (hmem : msg ∈ fd.message_type)
    (hnodup : (fd.message_type.map MsgDesc.name).Nodup)
    (hnosrc : msg.options.source = none) (hnoid : msg.options.id = none)
    (husers : ∀ u ∈ message_usage fd msg.name,
      (sourcePass1 fd.message_type (fun _ => none) u).isSome) :
    build_message_source_map fd msg.name =
      some (combineParentSources
        (((message_usage fd msg.name).filterMap
          (sourcePass1 fd.message_type (fun _ => none))).dedup)) ∧
    combineParentSources [] = SOURCE_SERVER ∧
    (∀ s, combineParentSources [s] = s) ∧
    (∀ s t rest, combineParentSources (s :: t :: rest) = SOURCE_BOTH) := by
  refine ⟨?_, rfl, fun s => rfl, fun s t rest => rfl⟩
  have huniq : ∀ m' ∈ fd.message_type, m'.name = msg.name → m' = msg := by
    intro m' hm' he
    exact List.inj_on_of_nodup_map hnodup hm' hmem he
  have hp1 : sourcePass1 fd.message_type (fun _ => none) msg.name = none :=
    sourcePass1_none fd.message_type (fun _ => none) msg.name
      (by
        intro m' hm' he
        rw [huniq m' hm' he]
        exact Or.inr ⟨hnosrc, hnoid⟩)
  exact sourcePass2_compute fd fd.message_type _ msg hmem huniq hp1 husers

/-- A file where `X` is referenced only by `A` (explicit
`SOURCE_SERVER`). -/
def c2wFd : FileDesc :=
  { message_type := [
      MsgDesc.mk "A" [FieldDesc.mk "x" 1 1 11 ".X" {}] { source := some 1 },
      MsgDesc.mk "X" [] {} ] }

/-- Witness for C2 (amended) on a single-parent file. -/
theorem source_direction_inference_witness :
    build_message_source_map c2wFd "X" =
      some (combineParentSources
        (((message_usage c2wFd "X").filterMap
          (sourcePass1 c2wFd.message_type fun _ => none)).dedup)) :=
  (source_direction_inference c2wFd (MsgDesc.mk "X" [] {}) (by decide)
    (by decide) rfl rfl (by decide)).1

/-- A file where `X` is referenced by `A` (explicit `SOURCE_SERVER`) and
`B` (explicit `SOURCE_CLIENT`): a mix of directions. -/
def c2Fd : FileDesc :=
  { message_type := [
      MsgDesc.mk "A" [FieldDesc.mk "x" 1 1 11 ".X" {}] { source := some 1 },
      MsgDesc.mk "B" [FieldDesc.mk "y" 1 1 11 ".X" {}] { source := some 2 },
      MsgDesc.mk "X" [] {} ] }

/-- Counterexample to C2 as stated: `X` is referenced by messages with a
mix of directions (`A` encode-only, `B` decode-only), and the code
assigns it `SOURCE_BOTH`, not the encode-only `SOURCE_SERVER` default
the claim requires for the mixed case. -/
theorem source_mix_counterexample :
    message_usage c2Fd "X" = ["A", "B"] ∧
    build_message_source_map c2Fd "A" = some SOURCE_SERVER ∧
    build_message_source_map c2Fd "B" = some SOURCE_CLIENT ∧
    build_message_source_map c2Fd "X" = some SOURCE_BOTH ∧
    SOURCE_BOTH ≠ SOURCE_SERVER :=
  ⟨by decide, by decide, by decide, by decide, by decide⟩

/-! ## Cross-schema analyzer: ifdef propagation -/

/-- Python truthiness of an ifdef entry: an absent entry, a stored
`None` and an empty string are all falsy. -/
def truthy : Option String → Bool
  | none => false
  | some s => !(s == "")

/-- The `message_to_ifdef` dictionary: the explicit `ifdef` option of
the message with this name (last occurrence wins, as in a dict
comprehension). -/
def message_to_ifdef (fd : FileDesc) (name : String) : Option String :=
  match fd.message_type.reverse.find? (fun m => m.name == name) with
  | some m => m.options.ifdef
  | none => none

/-- Model of `get_unique_ifdef`: the unique truthy explicit ifdef among a set of
message names, if there is exactly one distinct value. -/
def get_unique_ifdef (fd : FileDesc) (names : List String) : Option String :=
  match (names.filterMap fun n =>
      if truthy (message_to_ifdef fd n) then message_to_ifdef fd n
      else none).dedup with
  | [x] => some x
  | _ => none

/-- The initial ifdef assigned to one message (`build_type_usage_map`,
lines 1210-1228): its own explicit ifdef; else, if used, the unique
ifdef of its users; else the unique `field_ifdef` of the referencing
fields; else nothing. -/
def initialIfdefValue (fd : FileDesc) (msg : MsgDesc) : Option String :=
  let explicit := message_to_ifdef fd msg.name
  if truthy explicit then explicit
  else if !(message_usage fd msg.name).isEmpty then
    match get_unique_ifdef fd (message_usage fd msg.name) with
    | some p => some p
    | none =>
      if !(message_field_ifdefs fd msg.name).isEmpty then
        match ((message_field_ifdefs fd msg.name).filterMap id).dedup with
        | [x] => some x
        | _ => none
      else none
  else none

/-- Map update for ifdef entries (absent entries and stored `None` are
identified, since every read goes through falsy-tolerant `.get`). -/
def ifdefMapSet (m : String → Option String) (k : String)
    (v : Option String) : String → Option String :=
  fun x => if x = k then v else m x

/-- The first-phase ifdef map over all messages, in file order. -/
def initialIfdefMapAux (fd : FileDesc) : List MsgDesc →
    (String → Option String) → (String → Option String)
  | [], m => m
  | msg :: rest, m =>
      initialIfdefMapAux fd rest (ifdefMapSet m msg.name (initialIfdefValue fd msg))

/-- The message ifdef map before the propagation loop. -/
def initialIfdefMap (fd : FileDesc) : String → Option String :=
  initialIfdefMapAux fd fd.message_type (fun _ => none)

/-- One message step of the propagation pass (lines 1237-1256): a
message without a truthy guard, used by other messages, inherits the
unique truthy guard of its users when one exists; the Boolean records
whether an assignment was made. -/
def propStep (fd : FileDesc) (acc : (String → Option String) × Bool)
    (msg : MsgDesc) : (String → Option String) × Bool :=
  if truthy (acc.1 msg.name) then acc
  else if (message_usage fd msg.name).isEmpty then acc
  else
    match ((message_usage fd msg.name).filterMap fun p =>
        if truthy (acc.1 p) then acc.1 p else none).dedup with
    | [x] => (ifdefMapSet acc.1 msg.name (some x), true)
    | _ => acc

/-- One full propagation iteration over the file, returning the updated
map and the `changed` flag. -/
def ifdefIter (fd : FileDesc) (m : String → Option String) :
    (String → Option String) × Bool :=
  fd.message_type.foldl (propStep fd) (m, false)

/-- The bounded propagation loop: `while changed and iterations < 10`. -/
def ifdefLoop (fd : FileDesc) : Nat → (String → Option String) →
    (String → Option String)
  | 0, m => m
  | n + 1, m =>
      let r := ifdefIter fd m
      if r.2 then ifdefLoop fd n r.1 else r.1

/-- The `message_ifdef_map` returned by `build_type_usage_map`. -/
def build_message_ifdef_map (fd : FileDesc) : String → Option String :=
  ifdefLoop fd 10 (initialIfdefMap fd)

/-- Iterating the propagation pass `n` times from a map. -/
def iterIfdef (fd : FileDesc) (m : String → Option String) : Nat →
    (String → Option String)
  | 0 => m
  | n + 1 => (ifdefIter fd (iterIfdef fd m n)).1

theorem propStep_cases (fd : FileDesc) (acc : (String → Option String) × Bool)
    (msg : MsgDesc) :
    propStep fd acc msg = acc ∨
      ∃ x, propStep fd acc msg = (ifdefMapSet acc.1 msg.name (some x), true) := by
  unfold propStep
  split_ifs with h1 h2
  · exact Or.inl rfl
  · exact Or.inl rfl
  · rcases hd : ((message_usage fd msg.name).filterMap fun p =>
        if truthy (acc.1 p) then acc.1 p else none).dedup with _ | ⟨x, _ | ⟨y, t⟩⟩
    · exact Or.inl rfl
    · exact Or.inr ⟨x, rfl⟩
    · exact Or.inl rfl

theorem propStep_flag_mono (fd : FileDesc)
    (acc : (String → Option String) × Bool) (msg : MsgDesc)
    (h : acc.2 = true) : (propStep fd acc msg).2 = true := by
  rcases propStep_cases fd acc msg with he | ⟨x, he⟩ <;> rw [he]
  exact h

theorem foldl_propStep_flag_mono (fd : FileDesc) (l : List MsgDesc)
    (m : String → Option String) :
    (l.foldl (propStep fd) (m, true)).2 = true := by
  induction l generalizing m with
  | nil => rfl
  | cons a rest ih =>
    rw [List.foldl_cons]
    rcases propStep_cases fd (m, true) a with he | ⟨x, he⟩ <;> rw [he]
    · exact ih m
    · exact ih _

theorem foldl_propStep_unchanged (fd : FileDesc) (l : List MsgDesc)
    (m : String → Option String)
    (h : (l.foldl (propStep fd) (m, false)).2 = false) :
    (l.foldl (propStep fd) (m, false)).1 = m := by
  induction l generalizing m with
  | nil => rfl
  | cons a rest ih =>
    rw [List.foldl_cons] at h ⊢
    rcases propStep_cases fd (m, false) a with he | ⟨x, he⟩
    · rw [he] at h ⊢
      exact ih m h
    · rw [he] at h
      rw [foldl_propStep_flag_mono fd rest _] at h
      cases h

theorem ifdefIter_fst_of_not_changed (fd : FileDesc)
    (m : String → Option String) (h : (ifdefIter fd m).2 = false) :
    (ifdefIter fd m).1 = m :=
  foldl_propStep_unchanged fd fd.message_type m h

theorem iterIfdef_shift (fd : FileDesc) (m : String → Option String)
    (k : Nat) :
    iterIfdef fd m (k + 1) = iterIfdef fd (ifdefIter fd m).1 k := by
  induction k with
  | zero => rfl
  | succ k ih =>
    show (ifdefIter fd (iterIfdef fd m (k + 1))).1 = _
    rw [ih]
    rfl

theorem ifdefLoop_fixed_of_early (fd : FileDesc) (n : Nat)
    (m : String → Option String)
    (h : ∃ k, k < n ∧ (ifdefIter fd (iterIfdef fd m k)).2 = false) :
    (ifdefIter fd (ifdefLoop fd n m)).2 = false := by
  induction n generalizing m with
  | zero =>
    obtain ⟨k, hk, _⟩ := h
    omega
  | succ n ih =>
    rcases hch : (ifdefIter fd m).2 with _ | _
    · have hmap : (ifdefIter fd m).1 = m := ifdefIter_fst_of_not_changed fd m hch
      show (ifdefIter fd (if (ifdefIter fd m).2 then _ else (ifdefIter fd m).1)).2 = false
      rw [hch]
      simp only [Bool.false_eq_true, if_false]
      rw [hmap]
      exact hch
    · obtain ⟨k, hk, hkf⟩ := h
      rcases k with _ | k
      · rw [show iterIfdef fd m 0 = m from rfl] at hkf
        rw [hch] at hkf
        cases hkf
      · rw [iterIfdef_shift fd m k] at hkf
        show (ifdefIter fd (if (ifdefIter fd m).2 then ifdefLoop fd n (ifdefIter fd m).1 else _)).2 = false
        rw [hch]
        simp only [if_true]
        exact ih (ifdefIter fd m).1 ⟨k, by omega, hkf⟩

/-- Claim **C7 (amended)**: the guard assignment returned by
`build_type_usage_map` is a fixed point of the propagation pass
*provided the pass stabilizes within the 10-iteration safety cap* (some
iteration among the first 10 makes no change); the cap can otherwise
stop propagation one step short of a fixed point.  (The pass itself is
deterministic, so running the whole analysis twice on the same input
always yields identical assignments.) -/
theorem ifdef_map_fixed_point_of_early_stabilization (fd : FileDesc)
    (h : ∃ k, k < 10 ∧
      (ifdefIter fd (iterIfdef fd (initialIfdefMap fd) k)).2 = false) :
    (ifdefIter fd (build_message_ifdef_map fd)).2 = false :=
  ifdefLoop_fixed_of_early fd 10 (initialIfdefMap fd) h

/-- A three-message chain `N1 → N2 → N3` with an explicit guard on `N1`:
propagation stabilizes after one changing iteration. -/
def c7wFd : FileDesc :=
  { message_type := [
      MsgDesc.mk "N3" [] {},
      MsgDesc.mk "N2" [FieldDesc.mk "f" 1 1 11 ".N3" {}] {},
      MsgDesc.mk "N1" [FieldDesc.mk "f" 1 1 11 ".N2" {}] { ifdef := some "G" } ] }

/-- Witness for C7 (amended) on the three-message chain. -/
theorem ifdef_map_fixed_point_witness :
    (ifdefIter c7wFd (build_message_ifdef_map c7wFd)).2 = false :=
  ifdef_map_fixed_point_of_early_stabilization c7wFd ⟨1, by omega, by decide⟩

/-- A thirteen-message use chain `M1 → M2 → ... → M13` listed in reverse
file order, with an explicit guard only on `M1`.  Each full pass
propagates the guard down only one level, so ten capped iterations stop
one inheritance short. -/
def c7Fd : FileDesc :=
  { message_type := [
      MsgDesc.mk "M13" [] {},
      MsgDesc.mk "M12" [FieldDesc.mk "f" 1 1 11 ".M13" {}] {},
      MsgDesc.mk "M11" [FieldDesc.mk "f" 1 1 11 ".M12" {}] {},
      MsgDesc.mk "M10" [FieldDesc.mk "f" 1 1 11 ".M11" {}] {},
      MsgDesc.mk "M9" [FieldDesc.mk "f" 1 1 11 ".M10" {}] {},
      MsgDesc.mk "M8" [FieldDesc.mk "f" 1 1 11 ".M9" {}] {},
      MsgDesc.mk "M7" [FieldDesc.mk "f" 1 1 11 ".M8" {}] {},
      MsgDesc.mk "M6" [FieldDesc.mk "f" 1 1 11 ".M7" {}] {},
      MsgDesc.mk "M5" [FieldDesc.mk "f" 1 1 11 ".M6" {}] {},
      MsgDesc.mk "M4" [FieldDesc.mk "f" 1 1 11 ".M5" {}] {},
      MsgDesc.mk "M3" [FieldDesc.mk "f" 1 1 11 ".M4" {}] {},
      MsgDesc.mk "M2" [FieldDesc.mk "f" 1 1 11 ".M3" {}] {},
      MsgDesc.mk "M1" [FieldDesc.mk "f" 1 1 11 ".M2" {}] { ifdef := some "X" } ] }

/-- Counterexample to C7 as stated: on the thirteen-message chain the
returned guard map is *not* a fixed point — one further propagation
iteration still changes a guard (`M13` is left unguarded while its only
user `M12` carries the inherited guard). -/
theorem ifdef_fixed_point_counterexample :
    (ifdefIter c7Fd (build_message_ifdef_map c7Fd)).2 = true ∧
    build_message_ifdef_map c7Fd "M13" = none ∧
    build_message_ifdef_map c7Fd "M12" = some "X" ∧
    (ifdefIter c7Fd (build_message_ifdef_map c7Fd)).1 "M13" = some "X" :=
  ⟨by decide, by decide, by decide, by decide⟩

/-! ## Base-class grouping: common fields -/

/-- Python dict insertion: replace in place when the key exists,
append otherwise. -/
def dictInsert (d : List (String × FieldDesc)) (k : String)
    (v : FieldDesc) : List (String × FieldDesc) :=
  if d.any (fun p => p.1 == k) then
    d.map (fun p => if p.1 == k then (p.1, v) else p)
  else d ++ [(k, v)]

/-- Model of `first_msg_fields`: the first message's non-deprecated fields keyed
by name, in insertion order. -/
def firstMsgFieldsDict (fields : List FieldDesc) :
    List (String × FieldDesc) :=
  (fields.filter fun f => !f.options.deprecated).foldl
    (fun d f => dictInsert d f.name f) []

/-- Stable insertion by field number (equal numbers keep their relative
order, matching Python's stable `list.sort`). -/
def insertByNumber (f : FieldDesc) : List FieldDesc → List FieldDesc
  | [] => [f]
  | g :: t => if f.number ≤ g.number then f :: g :: t
      else g :: insertByNumber f t

/-- Stable sort by field number (`common_fields.sort(key=...number)`). -/
def sortByNumber : List FieldDesc → List FieldDesc
  | [] => []
  | f :: rest => insertByNumber f (sortByNumber rest)

/-- Model of `find_common_fields`: the first message's non-deprecated fields that
every other message also carries as a non-deprecated field with the same
name, type and label (field numbers are ignored), sorted by the first
message's field numbers. -/
def find_common_fields (messages : List MsgDesc) : List FieldDesc :=
  match messages with
  | [] => []
  | first :: rest =>
    let dict := firstMsgFieldsDict first.field
    let common := (dict.map Prod.snd).filter fun f =>
      rest.all fun msg => msg.field.any fun g =>
        !g.options.deprecated && g.name == f.name && g.type == f.type &&
          g.label == f.label
    sortByNumber common

theorem mem_insertByNumber (a f : FieldDesc) (l : List FieldDesc) :
    a ∈ insertByNumber f l ↔ a = f ∨ a ∈ l := by
  induction l with
  | nil => simp [insertByNumber]
  | cons g t ih =>
    simp only [insertByNumber]
    split_ifs with h
    · simp [List.mem_cons]
    · simp only [List.mem_cons, ih]
      tauto

theorem mem_sortByNumber (a : FieldDesc) (l : List FieldDesc) :
    a ∈ sortByNumber l ↔ a ∈ l := by
  induction l with
  | nil => simp [sortByNumber]
  | cons f rest ih =>
    simp only [sortByNumber, mem_insertByNumber, ih, List.mem_cons]

theorem dict_foldl_eq (l : List FieldDesc) (acc : List (String × FieldDesc))
    (hdisj : ∀ f ∈ l, acc.any (fun p => p.1 == f.name) = false)
    (hnodup : (l.map FieldDesc.name).Nodup) :
    l.foldl (fun d f => dictInsert d f.name f) acc =
      acc ++ l.map fun f => (f.name, f) := by
  induction l generalizing acc with
  | nil => simp
  | cons f t ih =>
    rw [List.foldl_cons]
    have hins : dictInsert acc f.name f = acc ++ [(f.name, f)] := by
      unfold dictInsert
      rw [if_neg]
      rw [hdisj f (List.mem_cons_self f t)]
      simp
    rw [hins]
    have h2 : f.name ∉ t.map FieldDesc.name ∧ (t.map FieldDesc.name).Nodup := by
      rw [List.map_cons, List.nodup_cons] at hnodup
      exact hnodup
    have hnodup' : (t.map FieldDesc.name).Nodup := h2.2
    have hfne : ∀ g ∈ t, f.name ≠ g.name := by
      intro g hg he
      exact h2.1 (he ▸ List.mem_map_of_mem FieldDesc.name hg)
    have hdisj' : ∀ g ∈ t,
        (acc ++ [(f.name, f)]).any (fun p => p.1 == g.name) = false := by
      intro g hg
      rw [List.any_append]
      rw [hdisj g (List.mem_cons_of_mem f hg)]
      simp [hfne g hg]
    rw [ih _ hdisj' hnodup']
    simp

/-- Messages `A(x:int32, y:int32)` and `B(x:int32, y:int32, z:string)`
sharing `base_class=Base`, with different field numbers for the shared
fields. -/
def exMsgA : MsgDesc :=
  MsgDesc.mk "A" [FieldDesc.mk "x" 1 1 5 "" {}, FieldDesc.mk "y" 2 1 5 "" {}]
    { baseClass := some "Base" }

/-- See `exMsgA`. -/
def exMsgB : MsgDesc :=
  MsgDesc.mk "B" [FieldDesc.mk "x" 7 1 5 "" {}, FieldDesc.mk "y" 9 1 5 "" {},
    FieldDesc.mk "z" 3 1 9 "" {}] { baseClass := some "Base" }

/-- Messages `A(x:int32)` and `B(x:string)`: same field name, different
types. -/
def exMsgA2 : MsgDesc := MsgDesc.mk "A" [FieldDesc.mk "x" 1 1 5 "" {}] {}

/-- See `exMsgA2`. -/
def exMsgB2 : MsgDesc := MsgDesc.mk "B" [FieldDesc.mk "x" 1 1 9 "" {}] {}

/-- Claim **C8**: for a non-empty message group (with the invariant that the
first message's field names are unique), `find_common_fields` returns
exactly the non-deprecated fields that appear in *every* message of the
group with matching name, type and label, regardless of field numbers;
in particular `{x, y}` for `A(x,y)` / `B(x,y,z)` and `{}` when the same
name has different types. -/
theorem find_common_fields_correct (first : MsgDesc) (rest : List MsgDesc)
    (hnodup : (first.field.map FieldDesc.name).Nodup) :
    (∀ f, f ∈ find_common_fields (first :: rest) ↔
      (f ∈ first.field ∧ f.options.deprecated = false ∧
        ∀ m ∈ first :: rest, ∃ g ∈ m.field, g.options.deprecated = false ∧
          g.name = f.name ∧ g.type = f.type ∧ g.label = f.label)) ∧
    find_common_fields [exMsgA, exMsgB] =
      [FieldDesc.mk "x" 1 1 5 "" {}, FieldDesc.mk "y" 2 1 5 "" {}] ∧
    find_common_fields [exMsgA2, exMsgB2] = [] := by
  refine ⟨?_, by decide, by decide⟩
  intro f
  have hfiltnodup :
      ((first.field.filter fun f => !f.options.deprecated).map
        FieldDesc.name).Nodup :=
    hnodup.sublist ((List.filter_sublist first.field).map FieldDesc.name)
  have hdict : firstMsgFieldsDict first.field =
      (first.field.filter fun f => !f.options.deprecated).map
        fun f => (f.name, f) := by
    unfold firstMsgFieldsDict
    rw [dict_foldl_eq _ [] (fun _ _ => rfl) hfiltnodup]
    rfl
  show f ∈ sortByNumber (((firstMsgFieldsDict first.field).map Prod.snd).filter
      fun f => rest.all fun msg => msg.field.any fun g =>
        !g.options.deprecated && g.name == f.name && g.type == f.type &&
          g.label == f.label) ↔ _
  rw [hdict]
  rw [mem_sortByNumber, List.mem_filter, List.map_map]
  have hmapid : ((first.field.filter fun f => !f.options.deprecated).map
      (Prod.snd ∘ fun f => (f.name, f))) =
      first.field.filter fun f => !f.options.deprecated := by
    have hid : (Prod.snd ∘ fun f : FieldDesc => (f.name, f)) = id := rfl
    rw [hid, List.map_id]
  rw [hmapid, List.mem_filter]
  simp only [Bool.not_eq_true', List.all_eq_true, List.any_eq_true,
    Bool.and_eq_true, beq_iff_eq]
  constructor
  · rintro ⟨⟨hmem, hdep⟩, hall⟩
    refine ⟨hmem, hdep, ?_⟩
    intro m hm
    rcases List.mem_cons.mp hm with rfl | hm'
    · exact ⟨f, hmem, hdep, rfl, rfl, rfl⟩
    · obtain ⟨g, hg, ⟨⟨⟨hgd, hgn⟩, hgt⟩, hgl⟩⟩ := hall m hm'
      exact ⟨g, hg, hgd, hgn, hgt, hgl⟩
  · rintro ⟨hmem, hdep, hall⟩
    refine ⟨⟨hmem, hdep⟩, ?_⟩
    intro m hm'
    obtain ⟨g, hg, hgd, hgn, hgt, hgl⟩ := hall m (List.mem_cons_of_mem _ hm')
    exact ⟨g, hg, ⟨⟨⟨hgd, hgn⟩, hgt⟩, hgl⟩⟩

/-- Witness for C8: the common-field characterization applied to the
`A`/`B` example, showing `x` is hoisted. -/
theorem find_common_fields_correct_witness :
    FieldDesc.mk "x" 1 1 5 "" {} ∈ find_common_fields [exMsgA, exMsgB] :=
  ((find_common_fields_correct exMsgA [exMsgB] (by decide)).1
    (FieldDesc.mk "x" 1 1 5 "" {})).mpr (by decide)

/-! ## Service emission: dispatch wrappers -/

/-- Python `str.splitlines` for newline-separated text: no entry for a
trailing newline, empty lines preserved. -/
def splitlinesModel (s : String) : List String :=
  if s = "" then []
  else
    let parts := s.splitOn "\n"
    if parts.getLast? = some "" then parts.dropLast else parts

/-- Model of `indent_list`: pads each line except empty lines and preprocessor
directives. -/
def indent_list (text : String) (padding : String := "  ") : List String :=
  (splitlinesModel text).map fun line =>
    (if line = "" then ""
     else if line.startsWith "#ifdef" || line.startsWith "#endif" then ""
     else padding) ++ line

/-- Model of `indent`: joins the padded lines with newlines. -/
def indent (text : String) (padding : String := "  ") : String :=
  String.intercalate "\n" (indent_list text padding)

/-- Per-method options of a `MethodDescriptorProto` as read by the
generator (`needs_setup_connection`, `needs_authentication`); `none`
models an absent extension. -/
structure MethodOptions where
  needsSetupConnection : Option Bool := none
  needsAuthentication : Option Bool := none
  deriving Repr, DecidableEq

/-- A service method: name, input/output type names (leading-dot
qualified). -/
structure MethodDesc where
  name : String
  inputType : String
  outputType : String
  options : MethodOptions := {}
  deriving Repr, DecidableEq

/-- Model of `needs_conn = get_opt(m, pb.needs_setup_connection, True)`. -/
def method_needs_conn (m : MethodDesc) : Bool :=
  (m.options.needsSetupConnection).getD true

/-- Model of `needs_auth = get_opt(m, pb.needs_authentication, True)`. -/
def method_needs_auth (m : MethodDesc) : Bool :=
  (m.options.needsAuthentication).getD true

/-- Model of `m.output_type[1:]`: strips the leading dot. -/
def stripLeadingDot (s : String) : String := ⟨s.data.drop 1⟩

/-- The handler-invocation statements of a dispatch wrapper: call the
virtual handler; for non-void methods also send the returned message,
treating a send failure as fatal. -/
def method_handler_body (func ret : String) (isVoid : Bool) : String :=
  if isVoid then "this->" ++ func ++ "(msg);\n"
  else
    ret ++ " ret = this->" ++ func ++ "(msg);\n" ++
      "if (!this->send_message(ret, " ++ ret ++ "::MESSAGE_TYPE)) \x7b\n" ++
      "  this->on_fatal_error();\n" ++ "\x7d\n"

/-- The body of the `on_<message>` dispatch wrapper emitted in `main`
(lines 2180-2213): when authentication or connection setup is required,
the handler is wrapped in a single guard — `check_authenticated_()` when
authentication is required (it subsumes the setup check), else
`check_connection_setup_()`; with both options disabled the handler runs
unguarded. -/
def method_dispatch_body (m : MethodDesc) : String :=
  let func := m.name
  let ret := stripLeadingDot m.outputType
  let isVoid := ret == "void"
  if method_needs_auth m || method_needs_conn m then
    let check :=
      if method_needs_auth m then "this->check_authenticated_()"
      else "this->check_connection_setup_()"
    "if (" ++ check ++ ") \x7b\n" ++
      indent (method_handler_body func ret isVoid) ++ "\n" ++ "\x7d\n"
  else method_handler_body func ret isVoid

/-- Claim **C10**: for every service method, absent `needs_authentication` /
`needs_setup_connection` options default to true; whenever
authentication is required (in particular by default) the dispatch
wrapper guards the handler with `check_authenticated_()`; the
`check_connection_setup_()` guard appears exactly when setup is required
and authentication is explicitly disabled; and with both options
explicitly disabled the handler is invoked with no guard at all. -/
theorem service_auth_guards (m : MethodDesc) :
    (m.options.needsAuthentication = none → method_needs_auth m = true) ∧
    (m.options.needsSetupConnection = none → method_needs_conn m = true) ∧
    (method_needs_auth m = true →
      method_dispatch_body m =
        "if (" ++ "this->check_authenticated_()" ++ ") \x7b\n" ++
          indent (method_handler_body m.name (stripLeadingDot m.outputType)
            (stripLeadingDot m.outputType == "void")) ++ "\n" ++ "\x7d\n") ∧
    (method_needs_auth m = false → method_needs_conn m = true →
      method_dispatch_body m =
        "if (" ++ "this->check_connection_setup_()" ++ ") \x7b\n" ++
          indent (method_handler_body m.name (stripLeadingDot m.outputType)
            (stripLeadingDot m.outputType == "void")) ++ "\n" ++ "\x7d\n") ∧
    (method_needs_auth m = false → method_needs_conn m = false →
      method_dispatch_body m =
        method_handler_body m.name (stripLeadingDot m.outputType)
          (stripLeadingDot m.outputType == "void")) := by
  refine ⟨?_, ?_, ?_, ?_, ?_⟩
  · intro h; simp [method_needs_auth, h]
  · intro h; simp [method_needs_conn, h]
  · intro h; simp [method_dispatch_body, h]
  · intro h1 h2; simp [method_dispatch_body, h1, h2]
  · intro h1 h2; simp [method_dispatch_body, h1, h2]

/-- A method with default options (both guards enabled). -/
def exMethod : MethodDesc :=
  { name := "device_info", inputType := ".DeviceInfoRequest",
    outputType := ".DeviceInfoResponse" }

/-- Witness for C10: the default-options method is guarded by the
authentication check. -/
theorem service_auth_guards_witness :
    method_dispatch_body exMethod =
      "if (" ++ "this->check_authenticated_()" ++ ") \x7b\n" ++
        indent (method_handler_body exMethod.name
          (stripLeadingDot exMethod.outputType)
          (stripLeadingDot exMethod.outputType == "void")) ++ "\n" ++
        "\x7d\n" :=
  (service_auth_guards exMethod).2.2.1 rfl

end ApiProtobuf
